import Mathlib

/-
Verification of the shift-allocation engine of the scheduler backend.

The development shallowly embeds the Python sources
`app/schedule_service.py`, `app/schedule_generator.py` and
`app/scheduler.py`:

* Python `dict`s with `.get` defaults become structures with `Option`
  fields read through `Option.getD`;
* the string keys `f"{employee_id}-{date}"` of the leave/unavailability
  dicts are modelled as `(employee_id, date)` pairs wherever only
  membership matters (the encoding is injective for ISO dates), and at
  character level where the code itself splits the string;
* Python exceptions become `Except.error` results;
* the CP-SAT backend (an external library) is modelled by its contract:
  an arbitrary valuation of the created boolean variables that satisfies
  every constraint added to the model.
-/

namespace SchedV

/-- A calendar date, as Python's `datetime.date`: year, month, day. -/
structure PyDate where
  year : Nat
  month : Nat
  day : Nat
deriving DecidableEq, Repr

/-- Python's `datetime.weekday()` (Monday = 0, ..., Sunday = 6) on the
proleptic Gregorian calendar, via Zeller's congruence.  This mirrors
`datetime.strptime(date, "%Y-%m-%d").weekday()` as used by
`ScheduleValidator._check_weekend_restriction`. -/
def pyWeekday (d : PyDate) : Nat :=
  let ym : Nat × Nat :=
    if d.month ≤ 2 then (d.year - 1, d.month + 12) else (d.year, d.month)
  let K := ym.1 % 100
  let J := ym.1 / 100
  let h := (d.day + 13 * (ym.2 + 1) / 5 + K + K / 4 + J / 4 + 5 * J) % 7
  (h + 5) % 7

/-- Python `str.split(sep)` for a one-character separator, acting on the
character list of the string.  The result always has at least one part. -/
def pySplit (sep : Char) : List Char → List (List Char)
  | [] => [[]]
  | c :: cs =>
    let rest := pySplit sep cs
    if c = sep then [] :: rest
    else
      match rest with
      | [] => [[c]]
      | p :: ps => (c :: p) :: ps

/-- Python `int(s)` on a string of decimal digits. -/
def pyInt (s : List Char) : Nat :=
  s.foldl (fun n c => 10 * n + (c.toNat - 48)) 0

/-! ### `ScheduleValidator` (schedule_service.py) -/

/-- A role dict as consumed by `ScheduleValidator`: `weekend_required` and
`break_minutes` are read with `dict.get` (hence `Option`), the two time
fields are `"HH:MM"` strings. -/
structure VRole where
  id : Nat
  weekend_required : Option Bool
  start_time : List Char
  end_time : List Char
  break_minutes : Option Nat
deriving DecidableEq, Repr

/-- Class constant `SHIFT_DURATION_REQUIRING_BREAK = 4 * 60`. -/
def SHIFT_DURATION_REQUIRING_BREAK : Nat := 4 * 60

/-- `ScheduleValidator._check_consecutive_shift_limit`: the source body is
`return True` unconditionally (its comment: "For now, return True
(validation happens at assignment time)"); `date` and `schedule` are
ignored. -/
def check_consecutive_shift_limit (employee_id : Nat) (d : PyDate)
    (schedule : List (Nat × PyDate)) : Bool :=
  true

/-- `ScheduleValidator._check_weekend_restriction`: reject weekend dates
(`weekday() ≥ 5`) unless `role.get('weekend_required', False)` is true. -/
def check_weekend_restriction (role : VRole) (d : PyDate) : Bool :=
  let day_of_week := pyWeekday d
  let is_weekend := decide (day_of_week ≥ 5)
  if is_weekend && !(role.weekend_required.getD false) then false else true

/-- `ScheduleValidator._check_shift_duration_break`: shifts longer than
4 hours (after overnight wrap-around) require `break_minutes > 0`.
`none` models the `ValueError` Python raises when a time string does not
split into exactly two `HH` / `MM` parts. -/
def check_shift_duration_break (role : VRole) : Option Bool :=
  match pySplit ':' role.start_time, pySplit ':' role.end_time with
  | [sh, sm], [eh, em] =>
    let start_min := pyInt sh * 60 + pyInt sm
    let end_min := pyInt eh * 60 + pyInt em
    let end_min := if end_min < start_min then end_min + 24 * 60 else end_min
    let duration := end_min - start_min
    if duration > SHIFT_DURATION_REQUIRING_BREAK then
      some (decide (role.break_minutes.getD 0 > 0))
    else some true
  | _, _ => none

/-- The violation / warning messages appended by `validate_assignment`,
as tags:
`leaveBlock` = "LEAVE: Employee is on approved leave this day",
`consecutiveLimit` = "5-SHIFT-LIMIT: Would exceed maximum 5 consecutive shifts",
`weekendRestrict` = "WEEKEND-RESTRICT: Weekend work not allowed for this role ...",
`unavailWarning` = "UNAVAIL-WARNING: Employee marked unavailable - shift can be auto-reassigned". -/
inductive VMsg where
  | leaveBlock
  | consecutiveLimit
  | weekendRestrict
  | unavailWarning
deriving DecidableEq, Repr

/-- `ScheduleValidator.validate_assignment`.  The dict keys
`f"{employee_id}-{date}"` of `leave_requests` / `unavailability` are
modelled as `(employee_id, date)` pairs.  Rules run in source order:
leave block, consecutive-limit, weekend restriction (only when the role
id resolves), then the unavailability warning, which returns
`(true, [warning])`. -/
def validate_assignment (roles : List VRole) (employee_id role_id : Nat)
    (d : PyDate) (schedule : List (Nat × PyDate))
    (leave_requests unavailability : List (Nat × PyDate)) :
    Bool × List VMsg :=
  if leave_requests.contains (employee_id, d) then
    (false, [VMsg.leaveBlock])
  else if !check_consecutive_shift_limit employee_id d schedule then
    (false, [VMsg.consecutiveLimit])
  else
    let role := roles.find? (fun r => r.id == role_id)
    if (match role with
        | some r => !check_weekend_restriction r d
        | none => false) then
      (false, [VMsg.weekendRestrict])
    else if unavailability.contains (employee_id, d) then
      (true, [VMsg.unavailWarning])
    else
      (true, [])

/-! ### `ShiftScheduleGenerator._handle_unavailability_reassignments`
(schedule_service.py)

Here the string structure of the dict keys matters, so keys and dates are
kept at character level.  `week_dates` is the `List[str]` the class is
constructed with; `schedule` maps a date string to the employee ids
scheduled on that day (`schedule[date]` keyed by employee id). -/

/-- Message of the `ValueError` raised by
`emp_id, date = unavail_key.split('-')` when the key does not split into
exactly two parts. -/
def valueErrorMsg : List Char := ['V', 'a', 'l', 'u', 'e', 'E', 'r', 'r', 'o', 'r']

/-- Message of the `AttributeError` raised by
`alt_date.strftime('%Y-%m-%d')`: `week_dates` holds `str` values
(see `ShiftScheduleGenerator.__init__` and `_assign_employees`), and
`str` has no `strftime`. -/
def attrErrorMsg : List Char := ['A', 't', 't', 'r', 'E', 'r', 'r', 'o', 'r']

/-- The loop of `_handle_unavailability_reassignments` over the
`unavailability` keys, returning the number of reassignment feedback
lines emitted, or the first raised exception.  For each key:
unpack `emp_id, date = unavail_key.split('-')` (a `ValueError` unless the
split has exactly two parts); if the employee is scheduled on `date`, the
inner scan over `week_dates` immediately evaluates
`alt_date.strftime(...)` on a `str`, raising `AttributeError`. -/
def handle_unavail_loop (week_dates : List (List Char))
    (schedule : List (List Char × List Nat)) :
    List (List Char) → Except (List Char) Nat
  | [] => .ok 0
  | unavail_key :: rest =>
    match pySplit '-' unavail_key with
    | [emp_part, date_part] =>
      let emp_id := pyInt emp_part
      let scheduled :=
        match schedule.find? (fun p => p.1 == date_part) with
        | some p => p.2.contains emp_id
        | none => false
      if scheduled then
        match week_dates with
        | [] => handle_unavail_loop week_dates schedule rest
        | _ :: _ => .error attrErrorMsg
      else
        handle_unavail_loop week_dates schedule rest
    | _ => .error valueErrorMsg

/-- `ShiftScheduleGenerator._handle_unavailability_reassignments`:
iterate over the unavailability keys (the `leave_requests` argument is
only read inside the inner scan, which is never reached). -/
def handle_unavailability_reassignments (week_dates : List (List Char))
    (schedule : List (List Char × List Nat))
    (leave_requests unavailability : List (List Char)) :
    Except (List Char) Nat :=
  handle_unavail_loop week_dates schedule unavailability

/-! ### `_round_allocations` (schedule_generator.py, scheduler.py)

Float allocation values are modelled over `ℚ`; keys over `Nat`
(the Python code is polymorphic in the key).  A dict is an association
list with `Nodup` keys. -/

/-- One iteration of the final loop, `result[key] += 1`. -/
def bump_key (l : List (Nat × Int)) (k : Nat) : List (Nat × Int) :=
  l.map fun kv => if kv.1 = k then (kv.1, kv.2 + 1) else kv

/-- The final loop of `_round_allocations`: add 1 to each of the listed
keys in turn. -/
def bump_keys (l : List (Nat × Int)) (ks : List Nat) : List (Nat × Int) :=
  ks.foldl bump_key l

/-- `_round_allocations` (largest-remainder rounding): floor every value,
sort the fractional remainders descending (Python's `sorted` with
`reverse=True` is stable, which `List.insertionSort` with `b.2 ≤ a.2`
reproduces), then add 1 to the first
`min(max(0, target_total - floor_sum), len)` keys.  `scheduler.py` omits
the `max(0, ·)`, which is behaviourally identical because a Python
`range` over a negative bound is empty, exactly as `Int.toNat` clamps. -/
def round_allocations (raw : List (Nat × ℚ)) (target_total : Int) :
    List (Nat × Int) :=
  let floored : List (Nat × Int) := raw.map fun kv => (kv.1, Int.floor kv.2)
  let remainders : List (Nat × ℚ) :=
    raw.map fun kv => (kv.1, kv.2 - (Int.floor kv.2 : ℚ))
  let current_sum := (floored.map Prod.snd).sum
  let units_to_add := target_total - current_sum
  let sorted_by_remainder := List.insertionSort (fun a b => b.2 ≤ a.2) remainders
  let toAdd := min (max 0 units_to_add).toNat sorted_by_remainder.length
  bump_keys floored ((sorted_by_remainder.take toAdd).map Prod.fst)

/-! ### `ShiftScheduleGenerator.generate` (schedule_generator.py)

The generator receives employee dicts, role dicts with a per-weekday
`schedule_config`, and `Dict[int, set]` maps of leave / unavailable
dates.  Weekday names (`date.strftime('%A')`) are modelled by the
weekday number `pyWeekday`, a bijection.  The `dates` list is the
inclusive day-by-day range the source builds from `start_date` to
`end_date`. -/

/-- An employee dict: `e.get('role_id')` (`None` = flexible) and
`e.get('shifts_per_week', 5)`. -/
structure GEmployee where
  id : Nat
  role_id : Option Nat
  shifts_per_week : Option Nat
deriving DecidableEq, Repr

/-- One weekday's entry of a `schedule_config` dict:
`day_config.get('enabled', False)`, `day_config.get('day_priority', 1)`
(read but unused by this generator), `day_config.get('required_count', ...)`. -/
structure DayCfg where
  enabled : Bool
  day_priority : Option Nat
  required_count : Option Nat
deriving DecidableEq, Repr

/-- A weekday missing from `schedule_config` yields the empty dict
`{}`, i.e. disabled with no overrides. -/
def DayCfg.empty : DayCfg := ⟨false, none, none⟩

/-- A role dict as consumed by the generator: `role.get('required_count', 1)`
and `schedule_config` indexed by weekday number (0 = Monday). -/
structure GRole where
  id : Nat
  required_count : Option Nat
  schedule_config : Nat → DayCfg

/-- The whole input of one `generate(start_date, end_date)` call. -/
structure GenInput where
  employees : List GEmployee
  roles : List GRole
  leave_dates : List (Nat × List PyDate)
  unavailable_dates : List (Nat × List PyDate)
  dates : List PyDate

/-- `check_date in self.leave_dates.get(employee_id, set())` —
membership in a `Dict[int, set]` entry (also used for
`unavailable_dates`). -/
def dictDatesContains (m : List (Nat × List PyDate)) (empId : Nat)
    (d : PyDate) : Bool :=
  match m.find? (fun p => p.1 == empId) with
  | some p => p.2.contains d
  | none => false

/-- `_is_on_leave`. -/
def is_on_leave (inp : GenInput) (empId : Nat) (d : PyDate) : Bool :=
  dictDatesContains inp.leave_dates empId d

/-- `_is_unavailable`. -/
def is_unavailable (inp : GenInput) (empId : Nat) (d : PyDate) : Bool :=
  dictDatesContains inp.unavailable_dates empId d

/-- Step 1 of `generate`: per-role capacity.  Employees of the role are
those with `e.get('role_id') == role_id` (a flexible employee, whose
`role_id` is `None`, never matches); each contributes
`e.get('shifts_per_week', 5) * (len(dates) // 7 + 1)`; the leave days of
those employees inside the horizon are subtracted; `max(0, ·)`. -/
def role_capacity (inp : GenInput) (roleId : Nat) : Int :=
  let role_employees := inp.employees.filter (fun e => e.role_id == some roleId)
  let total_shifts : Int :=
    (role_employees.map
      (fun e => (e.shifts_per_week.getD 5 : Int) *
        ((inp.dates.length / 7 + 1 : Nat) : Int))).sum
  let leave_reduction : Int :=
    (role_employees.map
      (fun e => ((inp.dates.filter (fun d => is_on_leave inp e.id d)).length : Int))).sum
  max 0 (total_shifts - leave_reduction)

/-- `_can_work_role_on_day`: look the role up by id; a missing role or a
disabled weekday means the employee cannot work it (the `emp_id`
argument is unused in the source as well). -/
def can_work_role_on_day (inp : GenInput) (emp_id roleId : Nat)
    (dayIdx : Nat) : Bool :=
  match inp.roles.find? (fun r => r.id == roleId) with
  | some r => (r.schedule_config dayIdx).enabled
  | none => false

/-- Steps 2–3 of `generate`: the per-(date, role) allocation.  Zero when
the role's capacity is zero or the weekday is disabled; otherwise
`min(required_count, role_emp_can_work)` when any matching, not-on-leave
employee can work the day, else zero.  (`day_priority` and
`available_count` are computed by the source only for feedback
messages.) -/
def day_role_allocation (inp : GenInput) (d : PyDate) (role : GRole) : Nat :=
  let capacity := role_capacity inp role.id
  if capacity == 0 then 0
  else
    let day_config := role.schedule_config (pyWeekday d)
    if !day_config.enabled then 0
    else
      let required_count := day_config.required_count.getD (role.required_count.getD 1)
      let role_emp_can_work :=
        (inp.employees.filter (fun e =>
          e.role_id == some role.id &&
          !is_on_leave inp e.id d &&
          can_work_role_on_day inp e.id role.id (pyWeekday d))).length
      if role_emp_can_work > 0 then min required_count role_emp_can_work else 0

/-- Step 4 of `generate`: whether the boolean variable
`assign_e{emp}_d{date}_r{roleId}` is created: the employee is not on
leave that day, `emp.get('role_id')` is truthy (not `None`, not `0`) and
equals `roleId`, and the owning role's config (the empty dict when the
role id is not found) enables the weekday. -/
def var_created (inp : GenInput) (e : GEmployee) (d : PyDate) (roleId : Nat) :
    Bool :=
  if is_on_leave inp e.id d then false
  else
    match e.role_id with
    | none => false
    | some rid =>
      rid != 0 && rid == roleId &&
      (match inp.roles.find? (fun r => r.id == rid) with
       | some r => (r.schedule_config (pyWeekday d)).enabled
       | none => DayCfg.empty.enabled)

/-- Constraint 3 helper: `available_days`, the horizon days on which the
employee is not on leave. -/
def available_days (inp : GenInput) (empId : Nat) : Nat :=
  (inp.dates.filter (fun d => !is_on_leave inp empId d)).length

/-- Constraint 3's per-employee cap
`int(shifts_per_week * (len(dates) / 7.0))`, modelled exactly over `ℚ`
(the binary-float computation agrees at every input evaluated here).
Note that the source uses the full horizon length, not
`available_days`. -/
def target_shifts (spw : Nat) (numDates : Nat) : Int :=
  Int.floor ((spw * numDates : ℚ) / 7)

/-- A valuation of the boolean decision variables,
`v empId date roleId`. -/
def GVal : Type := Nat → PyDate → Nat → Bool

/-- The variable dict `assignments[emp_id][date]` holds at most the one
key `emp.role_id`; this returns it when created. -/
def emp_var_on (inp : GenInput) (e : GEmployee) (d : PyDate) : Option Nat :=
  match e.role_id with
  | some rid => if var_created inp e d rid then some rid else none
  | none => none

/-- Whether the solution extraction writes a schedule entry for
employee `e` on date `d`: the created variable (if any) is valued 1.
The role lookup the extraction performs always succeeds when the
variable exists, since variable creation required it. -/
def emp_assigned_on (inp : GenInput) (v : GVal) (e : GEmployee) (d : PyDate) :
    Bool :=
  match emp_var_on inp e d with
  | some rid => v e.id d rid
  | none => false

/-- The extracted schedule (the returned
`{date: {employee_id: shift_info}}` dict): whether `schedule[d]` has an
entry for employee id `empId`. -/
def schedule_has (inp : GenInput) (v : GVal) (d : PyDate) (empId : Nat) :
    Bool :=
  inp.employees.any (fun e => e.id == empId && emp_assigned_on inp v e d)

/-- The constraints `generate` adds to the CP-SAT model, as a predicate
on valuations; any schedule the generator returns is extracted from a
valuation satisfying all of them (the solver's contract).

* Constraint 1 (coverage): for each date and role with positive
  allocation, if any matching employee has a created variable, at least
  `required` of those variables are 1.
* Constraint 2 (one shift per day) is added only when an employee has
  more than one variable on a day, which never happens (each employee
  has variables only for their own `role_id`), so it is omitted here.
* Constraint 3 (weekly cap): when the target and `available_days` are
  positive and the employee has any variable, the employee's 1-valued
  variables over the horizon number at most `target_shifts`.
* Constraint 4 (consecutive cap): for each window `dates[i:i+6]`
  (`i < len(dates) - 5`) in which the employee has a variable, the
  window's 1-valued variables number at most 5. -/
def IsSolution (inp : GenInput) (v : GVal) : Prop :=
  (∀ d ∈ inp.dates, ∀ role ∈ inp.roles,
    day_role_allocation inp d role > 0 →
    (inp.employees.filter
      (fun e => e.role_id == some role.id && var_created inp e d role.id)) ≠ [] →
    day_role_allocation inp d role ≤
      (inp.employees.filter
        (fun e => e.role_id == some role.id && var_created inp e d role.id)).countP
        (fun e => v e.id d role.id)) ∧
  (∀ e ∈ inp.employees,
    target_shifts (e.shifts_per_week.getD 5) inp.dates.length > 0 →
    available_days inp e.id > 0 →
    (inp.dates.filter (fun d => (emp_var_on inp e d).isSome)) ≠ [] →
    (inp.dates.countP (fun d => emp_assigned_on inp v e d) : Int) ≤
      target_shifts (e.shifts_per_week.getD 5) inp.dates.length) ∧
  (∀ e ∈ inp.employees, ∀ i ∈ List.range (inp.dates.length - 5),
    ((inp.dates.drop i).take 6).filter (fun d => (emp_var_on inp e d).isSome) ≠ [] →
    ((inp.dates.drop i).take 6).countP (fun d => emp_assigned_on inp v e d) ≤ 5)

/-! ### Specification-side capacity formulas (for C2) -/

/-- The capacity formula exactly as the specification claims it (C2):
eligible employees are those whose role matches *or who are flexible*;
the multiplier is `ceil(horizonDays / 7)`; those employees' leave days
inside the horizon are subtracted; floored at zero. -/
def claimed_role_capacity (inp : GenInput) (roleId : Nat) : Int :=
  let elig := inp.employees.filter
    (fun e => e.role_id == some roleId || e.role_id == none)
  let total : Int :=
    (elig.map (fun e => (e.shifts_per_week.getD 5 : Int) *
      (((inp.dates.length + 6) / 7 : Nat) : Int))).sum
  let leaves : Int :=
    (elig.map
      (fun e => ((inp.dates.filter (fun d => is_on_leave inp e.id d)).length : Int))).sum
  max 0 (total - leaves)

/-- The amended capacity formula (C2): only employees whose `role_id`
equals the role count (flexible employees are excluded); the weekly
multiplier is `floor(horizonDays / 7) + 1`; those employees' leave days
inside the horizon are subtracted; floored at zero. -/
def amended_role_capacity (inp : GenInput) (roleId : Nat) : Int :=
  let matching := inp.employees.filter (fun e => e.role_id == some roleId)
  let total : Int :=
    (matching.map (fun e => (e.shifts_per_week.getD 5 : Int) *
      ((inp.dates.length / 7 + 1 : Nat) : Int))).sum
  let leaves : Int :=
    (matching.map
      (fun e => ((inp.dates.filter (fun d => is_on_leave inp e.id d)).length : Int))).sum
  max 0 (total - leaves)

/-! ### Concrete inputs for counterexamples and witnesses -/

/-- The week Monday 2024-01-01 .. Sunday 2024-01-07. -/
def sample_week : List PyDate :=
  [⟨2024, 1, 1⟩, ⟨2024, 1, 2⟩, ⟨2024, 1, 3⟩, ⟨2024, 1, 4⟩,
   ⟨2024, 1, 5⟩, ⟨2024, 1, 6⟩, ⟨2024, 1, 7⟩]

/-- A generator input with one employee of role 1
(`shifts_per_week = 5`), no leave, over one 7-day week. -/
def one_emp_week : GenInput :=
  { employees := [⟨1, some 1, some 5⟩]
    roles := []
    leave_dates := []
    unavailable_dates := []
    dates := sample_week }

/-- A generator input with no employees at all. -/
def empty_input : GenInput :=
  { employees := [], roles := [], leave_dates := [], unavailable_dates := []
    dates := sample_week }

/-- One employee (`shifts_per_week = 5`) on leave for 2 of the 7 horizon
days (Saturday and Sunday). -/
def leave_two_of_seven : GenInput :=
  { employees := [⟨1, some 1, some 5⟩]
    roles := []
    leave_dates := [(1, [⟨2024, 1, 6⟩, ⟨2024, 1, 7⟩])]
    unavailable_dates := []
    dates := sample_week }

/-- Role config enabling Monday–Friday with `required_count = 1`. -/
def weekday_cfg : Nat → DayCfg :=
  fun i => if i ≤ 4 then ⟨true, some 1, some 1⟩ else DayCfg.empty

/-- A complete generator input admitting a solution: one employee of
role 1 with `shifts_per_week = 7`, the role enabled Monday–Friday,
Sunday on leave. -/
def sol_input : GenInput :=
  { employees := [⟨1, some 1, some 7⟩]
    roles := [⟨1, some 1, weekday_cfg⟩]
    leave_dates := [(1, [⟨2024, 1, 7⟩])]
    unavailable_dates := []
    dates := sample_week }

/-- A valuation assigning employee 1 to role 1 on Monday–Friday. -/
def sol_val : GVal :=
  fun empId d roleId =>
    decide (empId = 1) && decide (roleId = 1) && (sample_week.take 5).contains d

/-- The characters of `"HH:MM"`-style and date strings: two- and
four-digit zero-padded decimal prints. -/
def natDigits2 (n : Nat) : List Char :=
  [Char.ofNat (48 + n / 10 % 10), Char.ofNat (48 + n % 10)]

/-- Four-digit zero-padded decimal print. -/
def natDigits4 (n : Nat) : List Char :=
  [Char.ofNat (48 + n / 1000 % 10), Char.ofNat (48 + n / 100 % 10),
   Char.ofNat (48 + n / 10 % 10), Char.ofNat (48 + n % 10)]

/-- `date.strftime('%Y-%m-%d')` / `str(date)`: the ISO date string. -/
def dateChars (d : PyDate) : List Char :=
  natDigits4 d.year ++ '-' :: natDigits2 d.month ++ '-' :: natDigits2 d.day

/-- Python `str(n)` for a natural number. -/
def pyNatStr (n : Nat) : List Char := Nat.toDigits 10 n

/-- The dict key `f"{employee_id}-{date}"` at character level. -/
def date_key (empId : Nat) (d : PyDate) : List Char :=
  pyNatStr empId ++ '-' :: dateChars d

/-- A validator role allowed to work weekends, 09:00–17:00, 30-minute
break. -/
def role_weekend_ok : VRole :=
  ⟨1, some true,
   ['0', '9', ':', '0', '0'], ['1', '7', ':', '0', '0'], some 30⟩

/-- A validator role allowed to work weekends, 09:00–17:00 (an 8-hour
shift), with no `break_minutes` key. -/
def role_no_break : VRole :=
  ⟨1, some true,
   ['0', '9', ':', '0', '0'], ['1', '7', ':', '0', '0'], none⟩

/-- A validator role with no `weekend_required` key. -/
def role_no_weekend_key : VRole :=
  ⟨1, none, ['0', '9', ':', '0', '0'], ['1', '7', ':', '0', '0'], some 30⟩

/-- Employee 1 already assigned Monday 2024-01-01 .. Friday 2024-01-05. -/
def mon_to_fri_schedule : List (Nat × PyDate) :=
  [(1, ⟨2024, 1, 1⟩), (1, ⟨2024, 1, 2⟩), (1, ⟨2024, 1, 3⟩),
   (1, ⟨2024, 1, 4⟩), (1, ⟨2024, 1, 5⟩)]

/-- The week's ISO date strings, as `_handle_unavailability_reassignments`
receives them. -/
def sample_week_strs : List (List Char) := sample_week.map dateChars

/-- A `schedule_service` schedule dict: employee 7 is scheduled on
Wednesday 2024-01-03. -/
def emp7_schedule : List (List Char × List Nat) :=
  [(dateChars ⟨2024, 1, 3⟩, [7])]

instance : DecidableEq (Except (List Char) Nat)
  | .error a, .error b =>
    if h : a = b then .isTrue (by rw [h]) else .isFalse (by simp [h])
  | .error _, .ok _ => .isFalse (by simp)
  | .ok _, .error _ => .isFalse (by simp)
  | .ok a, .ok b =>
    if h : a = b then .isTrue (by rw [h]) else .isFalse (by simp [h])

/-! ## Theorems -/

/-- C2 (counterexample): with a single employee of role 1,
`shifts_per_week = 5`, no leave and a 7-day horizon, the generator's
Step-1 capacity is `5 * (7 // 7 + 1) = 10`, not the claimed
`5 * ceil(7/7) = 5`. -/
theorem C2_capacity_counterexample :
    ¬ role_capacity one_emp_week 1 = claimed_role_capacity one_emp_week 1 := by
  decide

/-- C2 (amended): the Step-1 capacity of a role equals the sum, over the
employees whose `role_id` equals the role (flexible employees excluded),
of `shifts_per_week` times `(horizonDays / 7) + 1` (floor division),
minus those employees' leave days inside the horizon, floored at zero;
and with no employees the capacity is zero. -/
theorem C2_capacity_amended (inp : GenInput) (roleId : Nat) :
    role_capacity inp roleId = amended_role_capacity inp roleId ∧
    (inp.employees = [] → role_capacity inp roleId = 0) := by
  constructor
  · rfl
  · intro h
    simp [role_capacity, h]

/-- C2 (witness for the amended theorem) at the empty-employee input. -/
theorem C2_capacity_amended_witness :
    role_capacity empty_input 1 = amended_role_capacity empty_input 1 ∧
    role_capacity empty_input 1 = 0 :=
  ⟨(C2_capacity_amended empty_input 1).1,
   (C2_capacity_amended empty_input 1).2 rfl⟩

/-- C3 (code bug): for an employee with `shifts_per_week = 5` and leave
on 2 of the 7 horizon days, Constraint 3's cap is
`int(5 * (7/7.0)) = 5`, computed from the horizon length, while the
specified bound `floor(5 * availableDays/7)` with `availableDays = 5`
is 3. -/
theorem C3_weekly_quota_divergence :
    available_days leave_two_of_seven 1 = 5 ∧
    target_shifts 5 leave_two_of_seven.dates.length = 5 ∧
    Int.floor ((5 * (available_days leave_two_of_seven 1) : ℚ) / 7) = 3 := by
  refine ⟨by decide, ?_, ?_⟩
  · have h : leave_two_of_seven.dates.length = 7 := by decide
    rw [h]; norm_num [target_shifts]
  · have h : available_days leave_two_of_seven 1 = 5 := by decide
    rw [h]
    rw [Int.floor_eq_iff]
    norm_num

/-- C5 (code bug): with employee 1 already assigned Monday–Friday
2024-01-01..05 and a Saturday 2024-01-06 proposal,
`validate_assignment` returns `valid = true` with no violations — its
`_check_consecutive_shift_limit` is an unconditional `return True` — so
the claimed `CONSECUTIVE_LIMIT` rejection never happens. -/
theorem C5_consecutive_stub_accepts :
    validate_assignment [role_weekend_ok] 1 1 ⟨2024, 1, 6⟩
      mon_to_fri_schedule [] [] = (true, []) ∧
    mon_to_fri_schedule.countP (fun p => p.1 == 1) = 5 ∧
    pyWeekday ⟨2024, 1, 6⟩ = 5 ∧
    check_consecutive_shift_limit 1 ⟨2024, 1, 6⟩ mon_to_fri_schedule = true := by
  decide

/-- C6 (code bug): for a role with an 8-hour shift (09:00–17:00) and no
`break_minutes`, `_check_shift_duration_break` itself computes `false`,
yet `validate_assignment` returns `valid = true` with no violations on a
weekday proposal — the break check is never invoked by
`validate_assignment`. -/
theorem C6_break_check_not_wired :
    validate_assignment [role_no_break] 1 1 ⟨2024, 1, 3⟩ [] [] [] = (true, []) ∧
    check_shift_duration_break role_no_break = some false := by
  decide

/-- C8 (code bug): with employee 7 scheduled on 2024-01-03 and flagged
unavailable there, `_handle_unavailability_reassignments` raises
`ValueError` at `emp_id, date = unavail_key.split('-')` — the key
`"7-2024-01-03"` splits into 4 parts — instead of scanning the week for
a replacement day. -/
theorem C8_reassigner_crashes :
    handle_unavailability_reassignments sample_week_strs emp7_schedule []
      [date_key 7 ⟨2024, 1, 3⟩] = .error valueErrorMsg ∧
    (pySplit '-' (date_key 7 ⟨2024, 1, 3⟩)).length = 4 ∧
    (match emp7_schedule.find? (fun p => p.1 == dateChars ⟨2024, 1, 3⟩) with
     | some p => p.2.contains 7
     | none => false) = true := by
  decide

/-- The weekend check computes `false` on a weekend date whenever the
role's `weekend_required` is absent or `False`. -/
theorem check_weekend_restriction_eq_false (r : VRole) (d : PyDate)
    (hkey : r.weekend_required.getD false = false) (hwk : 5 ≤ pyWeekday d) :
    check_weekend_restriction r d = false := by
  unfold check_weekend_restriction
  simp [hkey, hwk]

/-- C10: when the proposal's role resolves to a role whose
`weekend_required` key is absent or `False`, the date is a Saturday or
Sunday (`weekday() ≥ 5`), and the leave block does not fire,
`validate_assignment` rejects with the weekend-restriction violation
(the consecutive check before it always passes). -/
theorem C10_weekend_denied_by_default (roles : List VRole)
    (employee_id role_id : Nat) (d : PyDate)
    (schedule leave unavail : List (Nat × PyDate)) (r : VRole)
    (hleave : leave.contains (employee_id, d) = false)
    (hfind : roles.find? (fun x => x.id == role_id) = some r)
    (hkey : r.weekend_required.getD false = false)
    (hwk : 5 ≤ pyWeekday d) :
    validate_assignment roles employee_id role_id d schedule leave unavail
      = (false, [VMsg.weekendRestrict]) := by
  have hw := check_weekend_restriction_eq_false r d hkey hwk
  have hleave2 : (employee_id, d) ∉ leave := by simpa using hleave
  simp [validate_assignment, check_consecutive_shift_limit, hleave2, hfind, hw]

/-- C10 (witness): Sunday 2024-01-07 with a role lacking the
`weekend_required` key is rejected with the weekend violation. -/
theorem C10_weekend_denied_witness :
    validate_assignment [role_no_weekend_key] 1 1 ⟨2024, 1, 7⟩ [] [] []
      = (false, [VMsg.weekendRestrict]) :=
  C10_weekend_denied_by_default [role_no_weekend_key] 1 1 ⟨2024, 1, 7⟩ [] [] []
    role_no_weekend_key (by decide) (by decide) (by decide) (by decide)

/-- C7: (1) whenever the leave block does not fire and the weekend check
passes for the resolved role (if any), a proposal on a date the employee
is marked unavailable returns `valid = true` together with the
unavailability warning — the check runs after all hard checks; (2) a
rejection can only come from the leave block or the weekend restriction,
never from unavailability. -/
theorem C7_unavailability_warns_not_rejects :
    (∀ (roles : List VRole) (employee_id role_id : Nat) (d : PyDate)
       (schedule leave unavail : List (Nat × PyDate)),
       leave.contains (employee_id, d) = false →
       (∀ r, roles.find? (fun x => x.id == role_id) = some r →
         check_weekend_restriction r d = true) →
       unavail.contains (employee_id, d) = true →
       validate_assignment roles employee_id role_id d schedule leave unavail
         = (true, [VMsg.unavailWarning])) ∧
    (∀ (roles : List VRole) (employee_id role_id : Nat) (d : PyDate)
       (schedule leave unavail : List (Nat × PyDate)),
       (validate_assignment roles employee_id role_id d schedule leave
         unavail).1 = false →
       leave.contains (employee_id, d) = true ∨
       ∃ r, roles.find? (fun x => x.id == role_id) = some r ∧
         check_weekend_restriction r d = false) := by
  constructor
  · intro roles employee_id role_id d schedule leave unavail hleave hweek hunav
    have hleave2 : (employee_id, d) ∉ leave := by simpa using hleave
    have hunav2 : (employee_id, d) ∈ unavail := by simpa using hunav
    cases hfind : roles.find? (fun x => x.id == role_id) with
    | none =>
      simp [validate_assignment, check_consecutive_shift_limit, hleave2,
        hfind, hunav2]
    | some r =>
      have hw := hweek r hfind
      simp [validate_assignment, check_consecutive_shift_limit, hleave2,
        hfind, hw, hunav2]
  · intro roles employee_id role_id d schedule leave unavail hres
    by_cases hleave : leave.contains (employee_id, d) = true
    · exact Or.inl hleave
    · right
      rw [Bool.not_eq_true] at hleave
      have hleave2 : (employee_id, d) ∉ leave := by simpa using hleave
      cases hfind : roles.find? (fun x => x.id == role_id) with
      | none =>
        exfalso
        simp [validate_assignment, check_consecutive_shift_limit, hleave2,
          hfind] at hres
        by_cases hu : (employee_id, d) ∈ unavail <;> simp [hu] at hres
      | some r =>
        by_cases hw : check_weekend_restriction r d = true
        · exfalso
          simp [validate_assignment, check_consecutive_shift_limit, hleave2,
            hfind, hw] at hres
          by_cases hu : (employee_id, d) ∈ unavail <;> simp [hu] at hres
        · exact ⟨r, rfl, by rwa [Bool.not_eq_true] at hw⟩

/-- C7 (witness): employee 1 unavailable on Wednesday 2024-01-03, no
other conflict — `valid = true` with the unavailability warning. -/
theorem C7_unavailability_witness :
    validate_assignment [role_weekend_ok] 1 1 ⟨2024, 1, 3⟩ [] []
      [(1, ⟨2024, 1, 3⟩)] = (true, [VMsg.unavailWarning]) :=
  C7_unavailability_warns_not_rejects.1 [role_weekend_ok] 1 1 ⟨2024, 1, 3⟩
    [] [] [(1, ⟨2024, 1, 3⟩)] (by decide)
    (by
      intro r hr
      rw [show ([role_weekend_ok].find? (fun x => x.id == 1))
            = some role_weekend_ok from rfl] at hr
      injection hr with h
      subst h
      decide)
    (by decide)

/-- A date with a schedule entry for an employee has a created variable
for that employee. -/
theorem isSome_of_emp_assigned {inp : GenInput} {v : GVal} {e : GEmployee}
    {d : PyDate} (h : emp_assigned_on inp v e d = true) :
    (emp_var_on inp e d).isSome = true := by
  unfold emp_assigned_on at h
  cases hv : emp_var_on inp e d with
  | none => rw [hv] at h; simp at h
  | some rid => simp [hv]

/-- The Monday–Friday valuation satisfies every constraint of the
concrete instance `sol_input`. -/
theorem sol_input_is_solution : IsSolution sol_input sol_val := by
  refine ⟨by decide, ?_, by decide⟩
  intro e he h1 h2 h3
  have he2 : e = ⟨1, some 1, some 7⟩ := by
    rw [show sol_input.employees = [⟨1, some 1, some 7⟩] from rfl] at he
    simpa using he
  subst he2
  have hts : target_shifts
      ((⟨1, some 1, some 7⟩ : GEmployee).shifts_per_week.getD 5)
      sol_input.dates.length = 7 := by
    show target_shifts 7 7 = 7
    unfold target_shifts
    norm_num
  have hcount : sol_input.dates.countP
      (fun d => emp_assigned_on sol_input sol_val ⟨1, some 1, some 7⟩ d)
      = 5 := by decide
  rw [hts, hcount]
  decide

/-- C4: in every schedule extracted from a constraint-satisfying
valuation, every employee has at most 5 assigned dates inside any window
of 6 consecutive horizon dates. -/
theorem C4_six_day_window_cap (inp : GenInput) (v : GVal)
    (hv : IsSolution inp v) :
    ∀ e ∈ inp.employees, ∀ i, i + 6 ≤ inp.dates.length →
      ((inp.dates.drop i).take 6).countP
        (fun d => emp_assigned_on inp v e d) ≤ 5 := by
  intro e he i hi
  by_cases hw : ((inp.dates.drop i).take 6).filter
      (fun d => (emp_var_on inp e d).isSome) = []
  · have h0 : ((inp.dates.drop i).take 6).countP
        (fun d => emp_assigned_on inp v e d) = 0 := by
      rw [List.countP_eq_zero]
      intro d hd hassigned
      have hs := isSome_of_emp_assigned hassigned
      have hmem : d ∈ ((inp.dates.drop i).take 6).filter
          (fun x => (emp_var_on inp e x).isSome) :=
        List.mem_filter.mpr ⟨hd, hs⟩
      rw [hw] at hmem
      exact absurd hmem (List.not_mem_nil d)
    rw [h0]
    exact Nat.zero_le 5
  · exact hv.2.2 e he i (List.mem_range.mpr (by omega)) hw

/-- C4 (witness): for the concrete solved instance, the first 6-day
window holds at most 5 assignments of employee 1. -/
theorem C4_six_day_window_witness :
    ((sol_input.dates.drop 0).take 6).countP
      (fun d => emp_assigned_on sol_input sol_val ⟨1, some 1, some 7⟩ d)
      ≤ 5 :=
  C4_six_day_window_cap sol_input sol_val sol_input_is_solution
    ⟨1, some 1, some 7⟩ (by decide) 0 (by decide)

/-- C9: no schedule extracted from a constraint-satisfying valuation
contains an entry for an employee on one of that employee's leave dates
(the generator creates no decision variable on leave days). -/
theorem C9_leave_is_absolute (inp : GenInput) (v : GVal)
    (hv : IsSolution inp v) (empId : Nat) (d : PyDate)
    (hl : is_on_leave inp empId d = true) :
    schedule_has inp v d empId = false := by
  unfold schedule_has
  rw [List.any_eq_false]
  intro e he hcontra
  rw [Bool.and_eq_true] at hcontra
  obtain ⟨hid, hass⟩ := hcontra
  have hide : e.id = empId := by simpa using hid
  cases hrid : e.role_id with
  | none => simp [emp_assigned_on, emp_var_on, hrid] at hass
  | some rid =>
    have hvc : var_created inp e d rid = false := by
      unfold var_created
      rw [show is_on_leave inp e.id d = true from hide ▸ hl]
      rfl
    simp [emp_assigned_on, emp_var_on, hrid, hvc] at hass

/-- C9 (witness): in the concrete solved instance, employee 1 (on leave
Sunday 2024-01-07) has no entry that day. -/
theorem C9_leave_witness :
    schedule_has sol_input sol_val ⟨2024, 1, 7⟩ 1 = false :=
  C9_leave_is_absolute sol_input sol_val sol_input_is_solution 1
    ⟨2024, 1, 7⟩ (by decide)

/-! ### Lemmas about the largest-remainder rounding (C1) -/

/-- Pairing each key with a new value preserves the key list. -/
theorem map_fst_of_map_pair {β γ : Type} (l : List (Nat × β))
    (g : Nat × β → γ) :
    (l.map fun kv => (kv.1, g kv)).map Prod.fst = l.map Prod.fst := by
  induction l with
  | nil => rfl
  | cons a t ih => simp [ih]

/-- The values of a key-preserving map. -/
theorem map_snd_of_map_pair {β γ : Type} (l : List (Nat × β))
    (g : Nat × β → γ) :
    (l.map fun kv => (kv.1, g kv)).map Prod.snd = l.map g := by
  induction l with
  | nil => rfl
  | cons a t ih => simp [ih]

/-- Casting an integer list sum into `ℚ`. -/
theorem int_cast_list_sum (l : List Int) :
    ((l.sum : Int) : ℚ) = (l.map fun z : Int => (z : ℚ)).sum := by
  induction l with
  | nil => simp
  | cons a t ih => simp [ih]

/-- Summing pointwise differences over `ℚ`. -/
theorem sum_map_sub_rat {α : Type} (l : List α) (f g : α → ℚ) :
    (l.map fun a => f a - g a).sum = (l.map f).sum - (l.map g).sum := by
  induction l with
  | nil => simp
  | cons a t ih =>
    simp only [List.map_cons, List.sum_cons, ih]
    ring

/-- A list of rationals each at most 1 sums to at most the length. -/
theorem sum_le_length_rat (l : List ℚ) (h : ∀ x ∈ l, x ≤ 1) :
    l.sum ≤ (l.length : ℚ) := by
  induction l with
  | nil => simp
  | cons a t ih =>
    simp only [List.sum_cons, List.length_cons]
    have h1 : a ≤ 1 := h a (List.mem_cons_self a t)
    have h2 : t.sum ≤ (t.length : ℚ) :=
      ih fun x hx => h x (List.mem_cons_of_mem a hx)
    push_cast
    linarith

/-- `bump_key` preserves the key list. -/
theorem bump_key_map_fst (l : List (Nat × Int)) (k : Nat) :
    (bump_key l k).map Prod.fst = l.map Prod.fst := by
  induction l with
  | nil => rfl
  | cons a t ih =>
    show ((if a.1 = k then (a.1, a.2 + 1) else a) :: bump_key t k).map
        Prod.fst = _
    by_cases h : a.1 = k <;> simp [h, ih]

/-- `bump_key` with an absent key changes nothing. -/
theorem bump_key_of_not_mem (l : List (Nat × Int)) (k : Nat)
    (h : k ∉ l.map Prod.fst) : bump_key l k = l := by
  induction l with
  | nil => rfl
  | cons a t ih =>
    simp only [List.map_cons, List.mem_cons, not_or] at h
    obtain ⟨h1, h2⟩ := h
    show (if a.1 = k then (a.1, a.2 + 1) else a) :: bump_key t k = a :: t
    rw [if_neg (fun hh => h1 hh.symm), ih h2]

/-- `result[key] += 1` adds exactly 1 to the value sum when the key
occurs (once, by `Nodup`). -/
theorem bump_key_sum (l : List (Nat × Int)) (k : Nat)
    (hnd : (l.map Prod.fst).Nodup) (hk : k ∈ l.map Prod.fst) :
    ((bump_key l k).map Prod.snd).sum = (l.map Prod.snd).sum + 1 := by
  induction l with
  | nil => simp at hk
  | cons a t ih =>
    simp only [List.map_cons, List.nodup_cons] at hnd
    obtain ⟨ha, hndt⟩ := hnd
    simp only [List.map_cons, List.mem_cons] at hk
    show (((if a.1 = k then (a.1, a.2 + 1) else a) :: bump_key t k).map
        Prod.snd).sum = _
    by_cases h : a.1 = k
    · rw [if_pos h, bump_key_of_not_mem t k (h ▸ ha)]
      simp only [List.map_cons, List.sum_cons]
      ring
    · have hkt : k ∈ t.map Prod.fst := by
        rcases hk with h1 | h2
        · exact absurd h1.symm h
        · exact h2
      rw [if_neg h]
      simp only [List.map_cons, List.sum_cons, ih hndt hkt]
      ring

/-- The whole bump loop preserves the key list. -/
theorem bump_keys_map_fst (ks : List Nat) : ∀ l : List (Nat × Int),
    (bump_keys l ks).map Prod.fst = l.map Prod.fst := by
  induction ks with
  | nil => intro l; rfl
  | cons k ks ih =>
    intro l
    show (bump_keys (bump_key l k) ks).map Prod.fst = _
    rw [ih, bump_key_map_fst]

/-- The whole bump loop adds the number of bumped keys to the value
sum. -/
theorem bump_keys_sum (ks : List Nat) : ∀ l : List (Nat × Int),
    (l.map Prod.fst).Nodup → (∀ k ∈ ks, k ∈ l.map Prod.fst) →
    ((bump_keys l ks).map Prod.snd).sum
      = (l.map Prod.snd).sum + (ks.length : Int) := by
  induction ks with
  | nil => intro l _ _; simp [bump_keys]
  | cons k ks ih =>
    intro l hnd hks
    show ((bump_keys (bump_key l k) ks).map Prod.snd).sum = _
    rw [ih (bump_key l k) (by rw [bump_key_map_fst]; exact hnd)
      (by
        intro k2 hk2
        rw [bump_key_map_fst]
        exact hks k2 (List.mem_cons_of_mem k hk2)),
      bump_key_sum l k hnd (hks k (List.mem_cons_self k ks))]
    simp only [List.length_cons]
    push_cast
    ring

/-- C1: on a dict (distinct keys) of non-negative fractional allocations
summing exactly to the integer `T`, `_round_allocations` keeps the key
set and its integer values sum exactly to `T`. -/
theorem C1_round_allocations_exact_sum (raw : List (Nat × ℚ)) (T : Int)
    (hnd : (raw.map Prod.fst).Nodup)
    (hpos : ∀ kv ∈ raw, 0 ≤ kv.2)
    (hsum : (raw.map Prod.snd).sum = (T : ℚ)) :
    (round_allocations raw T).map Prod.fst = raw.map Prod.fst ∧
    ((round_allocations raw T).map Prod.snd).sum = T := by
  let F : List (Nat × Int) := raw.map fun kv => (kv.1, Int.floor kv.2)
  let R : List (Nat × ℚ) :=
    raw.map fun kv => (kv.1, kv.2 - (Int.floor kv.2 : ℚ))
  let SortedR := List.insertionSort (fun a b : Nat × ℚ => b.2 ≤ a.2) R
  let S : Int := (F.map Prod.snd).sum
  let t : Nat := min (max 0 (T - S)).toNat SortedR.length
  let Ks : List Nat := (SortedR.take t).map Prod.fst
  have hdef : round_allocations raw T = bump_keys F Ks := rfl
  have hFk : F.map Prod.fst = raw.map Prod.fst :=
    map_fst_of_map_pair raw fun kv => (Int.floor kv.2 : Int)
  have hRk : R.map Prod.fst = raw.map Prod.fst :=
    map_fst_of_map_pair raw fun kv => kv.2 - (Int.floor kv.2 : ℚ)
  have hperm : SortedR.Perm R := List.perm_insertionSort _ R
  have hKsub : ∀ k ∈ Ks, k ∈ F.map Prod.fst := by
    intro k hk
    rw [hFk, ← hRk]
    obtain ⟨p, hp, hpk⟩ := List.mem_map.mp hk
    have hpR : p ∈ R := hperm.subset (List.mem_of_mem_take hp)
    exact hpk ▸ List.mem_map_of_mem Prod.fst hpR
  have hFsnd : F.map Prod.snd = raw.map fun kv => (Int.floor kv.2 : Int) :=
    map_snd_of_map_pair raw fun kv => (Int.floor kv.2 : Int)
  have hRsnd : R.map Prod.snd
      = raw.map fun kv => kv.2 - (Int.floor kv.2 : ℚ) :=
    map_snd_of_map_pair raw fun kv => kv.2 - (Int.floor kv.2 : ℚ)
  have hS2 : ((S : Int) : ℚ) = (raw.map fun kv => ((Int.floor kv.2 : Int) : ℚ)).sum := by
    show (((F.map Prod.snd).sum : Int) : ℚ) = _
    rw [int_cast_list_sum, hFsnd, List.map_map]
    rfl
  have hRsum : (R.map Prod.snd).sum = (T : ℚ) - ((S : Int) : ℚ) := by
    rw [hRsnd, sum_map_sub_rat raw (fun kv => kv.2)
      (fun kv => (Int.floor kv.2 : ℚ)), hsum, hS2]
  have hRnonneg : ∀ x ∈ R.map Prod.snd, 0 ≤ x := by
    intro x hx
    rw [hRsnd] at hx
    obtain ⟨kv, hkv, rfl⟩ := List.mem_map.mp hx
    have := Int.floor_le kv.2
    linarith
  have hRle1 : ∀ x ∈ R.map Prod.snd, x ≤ 1 := by
    intro x hx
    rw [hRsnd] at hx
    obtain ⟨kv, hkv, rfl⟩ := List.mem_map.mp hx
    have := Int.lt_floor_add_one kv.2
    linarith
  have hunits_nonneg : 0 ≤ T - S := by
    have h0 : (0 : ℚ) ≤ (R.map Prod.snd).sum := List.sum_nonneg hRnonneg
    rw [hRsum] at h0
    have h1 : (0 : ℚ) ≤ ((T - S : Int) : ℚ) := by push_cast; linarith
    exact_mod_cast h1
  have hunits_le : T - S ≤ (R.length : Int) := by
    have h0 : (R.map Prod.snd).sum ≤ ((R.map Prod.snd).length : ℚ) :=
      sum_le_length_rat _ hRle1
    rw [hRsum, List.length_map] at h0
    have h1 : ((T - S : Int) : ℚ) ≤ ((R.length : Int) : ℚ) := by
      push_cast
      linarith
    exact_mod_cast h1
  have hsortlen : SortedR.length = R.length := hperm.length_eq
  have ht : t = (T - S).toNat := by
    show min (max 0 (T - S)).toNat SortedR.length = (T - S).toNat
    rw [max_eq_right hunits_nonneg, hsortlen]
    exact min_eq_left (Int.toNat_le.mpr hunits_le)
  have hKlen : Ks.length = (T - S).toNat := by
    show ((SortedR.take t).map Prod.fst).length = _
    rw [List.length_map, List.length_take, hsortlen, ht]
    exact min_eq_left (Int.toNat_le.mpr hunits_le)
  constructor
  · rw [hdef, bump_keys_map_fst, hFk]
  · rw [hdef, bump_keys_sum Ks F (hFk ▸ hnd) hKsub, hKlen,
      Int.toNat_of_nonneg hunits_nonneg]
    show S + (T - S) = T
    omega

/-- C1 (witness): two keys at 1.5 each, target 3: the rounding returns
the same keys with values summing to 3. -/
theorem C1_round_allocations_witness :
    (round_allocations [(1, (3 : ℚ)/2), (2, (3 : ℚ)/2)] 3).map Prod.fst
      = [(1, (3 : ℚ)/2), (2, (3 : ℚ)/2)].map Prod.fst ∧
    ((round_allocations [(1, (3 : ℚ)/2), (2, (3 : ℚ)/2)] 3).map
      Prod.snd).sum = 3 :=
  C1_round_allocations_exact_sum [(1, (3 : ℚ)/2), (2, (3 : ℚ)/2)] 3
    (by decide)
    (by
      intro kv hkv
      simp only [List.mem_cons, List.not_mem_nil, or_false] at hkv
      rcases hkv with rfl | rfl <;> norm_num)
    (by norm_num)

end SchedV
